import Mathlib

/-
  Verification of the data-loading and alignment pipeline in
  code_from_cluster_assignment.py (gene expression and estrogen-receptor
  clinical data).  The pandas DataFrames are shallowly embedded as Lean
  lists: row-oriented lists of records for the typed tables, and a
  column-oriented list of named columns where the claims concern column
  mechanics (one-hot encoding, drop, rename, selection).
-/

/-! ## String helpers

pandas compares and searches strings by Unicode code points.  The Lean
builtin order on String does not reduce in the kernel, so we embed the
code-point lexicographic order and substring search directly. -/

/-- Code-point comparison of characters. -/
def charLtb (a b : Char) : Bool := decide (a.toNat < b.toNat)

/-- Lexicographic (code-point) strict order on character lists. -/
def charsLtb : List Char → List Char → Bool
  | [], [] => false
  | [], _ :: _ => true
  | _ :: _, [] => false
  | a :: as, b :: bs => if a == b then charsLtb as bs else charLtb a b

/-- Lexicographic strict order on strings, as pandas sorts category labels. -/
def strLtb (x y : String) : Bool := charsLtb x.data y.data

/-- `leadsWith pat l` holds when `pat` is an initial segment of `l`. -/
def leadsWith : List Char → List Char → Bool
  | [], _ => true
  | _ :: _, [] => false
  | a :: as, b :: bs => a == b && leadsWith as bs

/-- `occursIn pat l` holds when `pat` occurs contiguously somewhere in `l`. -/
def occursIn (pat : List Char) : List Char → Bool
  | [] => leadsWith pat []
  | c :: t => leadsWith pat (c :: t) || occursIn pat t

/-- Substring test: `strContains hay pat` embeds the pandas
`Series.str.contains` test used with a plain identifier pattern
(the TCGA identifiers contain no regex metacharacters, so the regex
search coincides with plain substring search). -/
def strContains (hay pat : String) : Bool := occursIn pat.data hay.data

/-! ## Clinical table model (load_clinical_data, lines 26-44)

A raw clinical row carries the three selected fields
"Complete TCGA ID", "ER Status", "AJCC Stage"; a missing cell (NaN) is
`none`.  `load_clinical_data` is the composition of the `.dropna()` call
and the `.isin(["Negative","Positive"])` filter of lines 42-43. -/

/-- A row of the raw clinical spreadsheet restricted to the three selected
columns; `none` is a missing value. -/
structure RawClinicalRow where
  id : Option String
  er : Option String
  stage : Option String
deriving DecidableEq

/-- A fully populated clinical row, as produced once `.dropna()` has
removed the missing values. -/
structure ClinicalRow where
  id : String
  er : String
  stage : String
deriving DecidableEq

/-- The `.dropna()` of line 42: keep exactly the rows in which all three
selected fields are present. -/
def dropClinicalNA (raw : List RawClinicalRow) : List ClinicalRow :=
  raw.filterMap (fun r =>
    match r.id, r.er, r.stage with
    | some i, some e, some s => some ⟨i, e, s⟩
    | _, _, _ => none)

/-- The category filter of line 43:
`estrogen_receptor["ER Status"].isin(["Negative","Positive"])`. -/
def erCategoryFilter (rows : List ClinicalRow) : List ClinicalRow :=
  rows.filter (fun r => r.er == "Negative" || r.er == "Positive")

/-- `load_clinical_data` (lines 42-44): select the three columns, drop
rows with missing values, keep only the rows whose ER status is exactly
"Negative" or "Positive". -/
def load_clinical_data (raw : List RawClinicalRow) : List ClinicalRow :=
  erCategoryFilter (dropClinicalNA raw)

/-! ## Column-oriented frame model (encode_estrogen_receptor, lines 45-68)

The encoder manipulates whole columns (one-hot expansion, drop, rename,
column selection), so it is embedded over a list of named columns. -/

/-- A cell of a generic column: a string category or a 0/1 indicator. -/
inductive Value where
  | vStr (s : String)
  | vNat (n : Nat)
deriving DecidableEq

/-- A pandas DataFrame as an ordered list of named columns. -/
abbrev DataFrame := List (String × List Value)

/-- Insert a category label into a sorted duplicate-free label list. -/
def insertCat (x : String) : List String → List String
  | [] => [x]
  | y :: ys => if x == y then y :: ys else if strLtb x y then x :: y :: ys else y :: insertCat x ys

/-- The sorted list of distinct categories of a series, the column order
pandas `get_dummies` produces. -/
def categories (vals : List String) : List String :=
  vals.foldr insertCat []

/-- `pd.get_dummies` (line 62): one indicator column per category present
in the series, in sorted category order. -/
def get_dummies (vals : List String) : DataFrame :=
  (categories vals).map (fun c => (c, vals.map (fun v => Value.vNat (if v == c then 1 else 0))))

/-- `DataFrame.drop(labels, axis=1)`: removing a column label that does
not exist raises a KeyError. -/
def dropColumn (df : DataFrame) (name : String) : Except String DataFrame :=
  if df.any (fun c => c.1 == name) then
    Except.ok (df.filter (fun c => !(c.1 == name)))
  else
    Except.error ("KeyError: " ++ name)

/-- `DataFrame.rename(columns={old: nw})`: renames matching labels and
silently leaves the frame unchanged when the label is absent. -/
def renameColumn (df : DataFrame) (old nw : String) : DataFrame :=
  df.map (fun c => if c.1 == old then (nw, c.2) else c)

/-- Column selection `df[[n1, ..., nk]]`: yields the named columns in the
requested order, raising a KeyError on a missing label. -/
def selectColumns (df : DataFrame) : List String → Except String DataFrame
  | [] => Except.ok []
  | n :: ns =>
    match df.find? (fun c => c.1 == n) with
    | none => Except.error ("KeyError: " ++ n)
    | some c =>
      match selectColumns df ns with
      | Except.error e => Except.error e
      | Except.ok cs => Except.ok (c :: cs)

/-- View of a typed clinical table as a three-column frame, in the column
order of the loader output. -/
def clinicalToFrame (rows : List ClinicalRow) : DataFrame :=
  [("Complete TCGA ID", rows.map (fun r => Value.vStr r.id)),
   ("ER Status", rows.map (fun r => Value.vStr r.er)),
   ("AJCC Stage", rows.map (fun r => Value.vStr r.stage))]

/-- `encode_estrogen_receptor` (lines 62-68): one-hot expand "ER Status",
concatenate the indicator columns in front of the clinical columns, drop
the categorical "ER Status" column, drop the "Positive" indicator, rename
the "Negative" indicator to "ER Status", and select the three output
columns in order. -/
def encode_estrogen_receptor (clinical_data : List ClinicalRow) : Except String DataFrame :=
  let dummy_data := get_dummies (clinical_data.map (fun r => r.er))
  let estrogen_receptor := dummy_data ++ clinicalToFrame clinical_data
  match dropColumn estrogen_receptor "ER Status" with
  | Except.error e => Except.error e
  | Except.ok e1 =>
    match dropColumn e1 "Positive" with
    | Except.error e => Except.error e
    | Except.ok e2 =>
      selectColumns (renameColumn e2 "Negative" "ER Status") ["Complete TCGA ID", "ER Status", "AJCC Stage"]

/-! ## Expression table model (load_gene_expression_data, lines 3-25)

The input matrix is gene-by-sample: a list of sample names (the header
row) and one row per gene holding the gene identifier and its values per
sample, a missing measurement being `none`. -/

/-- Output of the expression loader: the retained gene identifiers (the
column labels besides "NAME") and one row per sample, holding the NAME
cell and the gene cells in gene order. -/
structure ExprTable where
  geneNames : List String
  rows : List (String × List (Option ℚ))
deriving DecidableEq

/-- `load_gene_expression_data` (lines 20-25): drop every gene row with a
missing value, transpose so samples become rows, and expose the sample
identifier as the "NAME" column. -/
def load_gene_expression_data (sampleNames : List String)
    (genes : List (String × List (Option ℚ))) : ExprTable :=
  let kept := genes.filter (fun g => g.2.all Option.isSome)
  { geneNames := kept.map Prod.fst,
    rows := (List.range sampleNames.length).map (fun i =>
      (sampleNames.getD i "", kept.map (fun g => g.2.getD i none))) }

/-! ## Sample matcher (create_data_structures_with_matching_sample, lines 69-104)

Expression rows are pairs of the NAME cell and an opaque payload of gene
cells; the matcher only reads and rewrites NAME. -/

/-- One pass of the loop body at line 99 for a fixed clinical `id`:
every row whose NAME contains `id` has its NAME overwritten with `id`. -/
def overwriteNames {α : Type} (id : String) (rows : List (String × α)) : List (String × α) :=
  rows.map (fun r => if strContains r.1 id then (id, r.2) else r)

/-- The whole loop of lines 98-99: the overwrite pass for each clinical
sample ID, in clinical row order. -/
def normalizeNames {α : Type} (ids : List String) (rows : List (String × α)) : List (String × α) :=
  ids.foldl (fun rs id => overwriteNames id rs) rows

/-- The final NAME of a single row after the loop of lines 98-99, as a
fold over the clinical IDs in order. -/
def nameAfter (ids : List String) (n : String) : String :=
  ids.foldl (fun m id => if strContains m id then id else m) n

/-- Duplicate test on a label list. -/
def hasDup : List String → Bool
  | [] => false
  | x :: xs => xs.contains x || hasDup xs

/-- `set_index("NAME")` followed by `reindex(index=target)` (lines
102-103): pandas raises a ValueError when the existing index carries
duplicate labels; otherwise each target label selects its row, a label
with no row yielding an all-missing row (`none`). -/
def reindexRows {α : Type} (rows : List (String × α)) (target : List String) :
    Except String (List (String × Option α)) :=
  if hasDup (rows.map Prod.fst) then
    Except.error "cannot reindex on an axis with duplicate labels"
  else
    Except.ok (target.map (fun t => (t, (rows.find? (fun r => r.1 == t)).map Prod.snd)))

/-- `create_data_structures_with_matching_sample` (lines 97-104):
normalize the NAME column against the clinical IDs, keep only clinical
rows whose ID now occurs among the NAMEs, then index the expression rows
by NAME and reorder them to the clinical ID sequence. -/
def create_data_structures_with_matching_sample {α : Type}
    (genes_expression : List (String × α)) (estrogen_receptor : List ClinicalRow) :
    Except String (List (String × Option α) × List ClinicalRow) :=
  let sample_ID := estrogen_receptor.map (fun r => r.id)
  let ge := normalizeNames sample_ID genes_expression
  let TCGA_ID := ge.map Prod.fst
  let er := estrogen_receptor.filter (fun r => TCGA_ID.contains r.id)
  match reindexRows ge (er.map (fun r => r.id)) with
  | Except.error e => Except.error e
  | Except.ok out => Except.ok (out, er)

/-- State of the caller's `genes_expression` table once
`create_data_structures_with_matching_sample` has returned: the loop at
lines 98-99 assigns through `.loc`, so the overwrites land in the table
the caller passed in, not in a copy. -/
def genesExpressionArgAfterMatch {α : Type}
    (genes_expression : List (String × α)) (estrogen_receptor : List ClinicalRow) :
    List (String × α) :=
  normalizeNames (estrogen_receptor.map (fun r => r.id)) genes_expression

/-! ## Variability summary (get_std, lines 106-122)

`DataFrame.std()` computes, per numeric column, the square root of the
sample variance with the `ddof=1` default; with fewer than two values the
result is NaN (`none`).  Expression levels are embedded as rationals and
the standard deviation lives in ℝ. -/

/-- Arithmetic mean of a column. -/
def listMean (xs : List ℚ) : ℚ := xs.sum / xs.length

/-- Sample variance with Bessel correction: sum of squared deviations
over `n - 1`. -/
def sampleVariance (xs : List ℚ) : ℚ :=
  (xs.map (fun x => (x - listMean xs) ^ 2)).sum / ((xs.length : ℚ) - 1)

/-- Standard deviation of one numeric column, `ddof=1`; NaN (`none`)
below two values. -/
noncomputable def colStd (xs : List ℚ) : Option ℝ :=
  if xs.length < 2 then none else some (Real.sqrt ((sampleVariance xs : ℚ) : ℝ))

/-- `get_std` (lines 121-122): the per-column standard deviation series
of an expression table given by its numeric gene columns. -/
noncomputable def get_std (genes_expression : List (String × List ℚ)) :
    List (String × Option ℝ) :=
  genes_expression.map (fun c => (c.1, colStd c.2))

/-! ## Helper lemmas -/

lemma normalizeNames_nil {α : Type} (rows : List (String × α)) :
    normalizeNames [] rows = rows := rfl

lemma normalizeNames_eq_map {α : Type} (ids : List String) (rows : List (String × α)) :
    normalizeNames ids rows = rows.map (fun r => (nameAfter ids r.1, r.2)) := by
  induction ids generalizing rows with
  | nil => simp [normalizeNames, nameAfter]
  | cons id ids ih =>
    have hstep : normalizeNames (id :: ids) rows = normalizeNames ids (overwriteNames id rows) := rfl
    rw [hstep, ih, overwriteNames, List.map_map]
    apply List.map_congr_left
    intro r _
    by_cases h : strContains r.1 id = true
    · simp [Function.comp, h, nameAfter, List.foldl_cons]
    · simp only [Bool.not_eq_true] at h
      simp [Function.comp, h, nameAfter, List.foldl_cons]

lemma normalizeNames_fixed {α : Type} (ids : List String) (rows : List (String × α))
    (h : ∀ id ∈ ids, ∀ r ∈ rows, strContains r.1 id = true → id = r.1) :
    normalizeNames ids rows = rows := by
  induction ids with
  | nil => rfl
  | cons id ids ih =>
    have hfix : overwriteNames id rows = rows := by
      unfold overwriteNames
      conv_rhs => rw [← List.map_id rows]
      apply List.map_congr_left
      intro r hr
      by_cases hc : strContains r.1 id = true
      · have hid := h id (by simp) r hr hc
        rw [if_pos hc, hid]
        rfl
      · simp only [Bool.not_eq_true] at hc
        simp [hc]
    have hstep : normalizeNames (id :: ids) rows = normalizeNames ids (overwriteNames id rows) := rfl
    rw [hstep, hfix]
    exact ih (fun i hi r hr => h i (by simp [hi]) r hr)

/-! ## C7 -/

/-- C7: the Clinical Loader category filter is idempotent: re-applying
the filter that keeps only rows with ER status in the set of "Negative"
and "Positive" to the output of load_clinical_data returns that output
unchanged. -/
theorem er_filter_idempotent (raw : List RawClinicalRow) :
    erCategoryFilter (load_clinical_data raw) = load_clinical_data raw := by
  unfold load_clinical_data erCategoryFilter
  rw [List.filter_filter]
  apply List.filter_congr
  intro r _
  cases h : (r.er == "Negative" || r.er == "Positive") <;> simp [h]

/-! ## C4 -/

/-- C4: every row of the Clinical Loader output has ER status exactly
"Negative" or "Positive", and descends from an input row in which all
three selected fields are present; rows with other category values never
reach the output, and the loader is a total function (no error). -/
theorem clinical_loader_filtered (raw : List RawClinicalRow) (r : ClinicalRow)
    (hr : r ∈ load_clinical_data raw) :
    (r.er = "Negative" ∨ r.er = "Positive")
    ∧ ∃ q ∈ raw, q.id = some r.id ∧ q.er = some r.er ∧ q.stage = some r.stage := by
  unfold load_clinical_data erCategoryFilter at hr
  rw [List.mem_filter] at hr
  obtain ⟨hmem, hcat⟩ := hr
  constructor
  · rcases Bool.or_eq_true_iff.mp hcat with h | h
    · exact Or.inl (by simpa using h)
    · exact Or.inr (by simpa using h)
  · unfold dropClinicalNA at hmem
    rw [List.mem_filterMap] at hmem
    obtain ⟨q, hq, hfq⟩ := hmem
    refine ⟨q, hq, ?_⟩
    rcases q with ⟨qi, qe, qs⟩
    cases qi with
    | none => simp at hfq
    | some i =>
      cases qe with
      | none => simp at hfq
      | some e =>
        cases qs with
        | none => simp at hfq
        | some s =>
          simp only [Option.some.injEq] at hfq
          subst hfq
          exact ⟨rfl, rfl, rfl⟩

/-- Witness for C4 at a concrete input. -/
theorem clinical_loader_filtered_witness :
    ((⟨"a", "Negative", "I"⟩ : ClinicalRow).er = "Negative"
      ∨ (⟨"a", "Negative", "I"⟩ : ClinicalRow).er = "Positive")
    ∧ ∃ q ∈ [(⟨some "a", some "Negative", some "I"⟩ : RawClinicalRow)],
        q.id = some (⟨"a", "Negative", "I"⟩ : ClinicalRow).id
        ∧ q.er = some (⟨"a", "Negative", "I"⟩ : ClinicalRow).er
        ∧ q.stage = some (⟨"a", "Negative", "I"⟩ : ClinicalRow).stage :=
  clinical_loader_filtered [⟨some "a", some "Negative", some "I"⟩] ⟨"a", "Negative", "I"⟩
    (by decide)

/-! ## C3 -/

/-- C3: on a rectangular input matrix, no gene cell of any row of the
Expression Loader output is missing: every gene with a missing value in
any sample is dropped before transposition. -/
theorem expression_output_no_missing (sampleNames : List String)
    (genes : List (String × List (Option ℚ)))
    (hrect : ∀ g ∈ genes, g.2.length = sampleNames.length) :
    ∀ r ∈ (load_gene_expression_data sampleNames genes).rows,
      ∀ v ∈ r.2, v.isSome = true := by
  intro r hr v hv
  unfold load_gene_expression_data at hr
  simp only [List.mem_map, List.mem_range] at hr
  obtain ⟨i, hi, hre⟩ := hr
  rw [← hre] at hv
  simp only [List.mem_map] at hv
  obtain ⟨g, hg, hgv⟩ := hv
  rw [List.mem_filter] at hg
  obtain ⟨hgin, hall⟩ := hg
  have hlen : i < g.2.length := by rw [hrect g hgin]; exact hi
  rw [← hgv, List.getD_eq_getElem?_getD, List.getElem?_eq_getElem hlen]
  exact List.all_eq_true.mp hall _ (List.getElem_mem hlen)

/-- Witness for C3 at a concrete input, including a concrete row and cell. -/
theorem expression_output_no_missing_witness :
    (some (1:ℚ)).isSome = true :=
  expression_output_no_missing ["s1"] [("g1", [some 1])] (by decide)
    ("s1", [some 1]) (by decide) (some 1) (by decide)

/-! ## C5 -/

/-- C5: the NAME overwrite loop acts on each expression row
independently, folding the clinical IDs over its NAME in clinical row
order (each ID whose pattern occurs in the current NAME overwrites it),
and when the final fold step matches, that last matching ID wins
regardless of any earlier overwrite. -/
theorem matcher_last_match_wins (α : Type) (ids : List String)
    (rows : List (String × α)) (idLast n : String)
    (hmatch : strContains (nameAfter ids n) idLast = true) :
    normalizeNames ids rows = rows.map (fun r => (nameAfter ids r.1, r.2))
    ∧ nameAfter (ids ++ [idLast]) n = idLast := by
  refine ⟨normalizeNames_eq_map ids rows, ?_⟩
  unfold nameAfter
  rw [List.foldl_append]
  simp only [List.foldl_cons, List.foldl_nil]
  rw [show (List.foldl (fun m id => if strContains m id then id else m) n ids) = nameAfter ids n from rfl]
  rw [if_pos hmatch]

/-- Witness for C5 at a concrete input. -/
theorem matcher_last_match_wins_witness :
    normalizeNames ["TCGA-A1-01"] [("TCGA-A1-01-sample", (0:ℕ))]
      = [("TCGA-A1-01-sample", (0:ℕ))].map (fun r => (nameAfter ["TCGA-A1-01"] r.1, r.2))
    ∧ nameAfter (["TCGA-A1-01"] ++ ["A1"]) "TCGA-A1-01-sample" = "A1" :=
  matcher_last_match_wins ℕ ["TCGA-A1-01"] [("TCGA-A1-01-sample", 0)] "A1"
    "TCGA-A1-01-sample" (by decide)

/-! ## C6 -/

/-- C6 counterexample: the Sample Matcher does modify the expression
table passed to it — the overwrite loop of lines 98-99 assigns through
`.loc` into the argument, so after the call the caller's table differs
from what was passed in whenever a NAME strictly contains a clinical ID. -/
theorem matcher_argument_mutated_cex :
    genesExpressionArgAfterMatch [("TCGA-A1-01-sample", (0:ℕ))]
        [⟨"TCGA-A1-01", "Negative", "I"⟩]
      ≠ [("TCGA-A1-01-sample", (0:ℕ))] := by
  decide

/-- C6 amended: the loaders, the encoder and the variability summary
return new outputs, but the Sample Matcher overwrites the NAME column of
its genes_expression argument in place; the argument is left unchanged
exactly in the benign case in which every clinical ID occurring inside a
NAME already equals that NAME, so that every overwrite is the identity. -/
theorem matcher_argument_fixed (α : Type) (ge : List (String × α))
    (er : List ClinicalRow)
    (h : ∀ id ∈ er.map (fun r => r.id), ∀ r ∈ ge, strContains r.1 id = true → id = r.1) :
    genesExpressionArgAfterMatch ge er = ge := by
  unfold genesExpressionArgAfterMatch
  exact normalizeNames_fixed _ _ h

/-- Witness for the amended C6 at a concrete input. -/
theorem matcher_argument_fixed_witness :
    genesExpressionArgAfterMatch [("TCGA-A1-01", (5:ℕ))]
        [⟨"TCGA-A1-01", "Negative", "I"⟩]
      = [("TCGA-A1-01", (5:ℕ))] :=
  matcher_argument_fixed ℕ [("TCGA-A1-01", 5)] [⟨"TCGA-A1-01", "Negative", "I"⟩]
    (by decide)

/-! ## Duplicate-label lemmas -/

lemma hasDup_of_two_count (l : List String) (a : String) (h : 2 ≤ l.count a) :
    hasDup l = true := by
  induction l with
  | nil => simp at h
  | cons x t ih =>
    have hstep : hasDup (x :: t) = (t.contains x || hasDup t) := rfl
    rw [hstep]
    by_cases hxa : x = a
    · subst hxa
      have h1 : 2 ≤ List.count x t + 1 := by
        simpa [List.count_cons] using h
      have hmem : x ∈ t := List.count_pos_iff.mp (by omega)
      have hc : t.contains x = true := List.elem_eq_true_of_mem hmem
      rw [hc]
      rfl
    · have h2 : 2 ≤ List.count a t := by
        have hbeq : (x == a) = false := beq_false_of_ne hxa
        simpa [List.count_cons, hbeq] using h
      rw [ih h2]
      simp

lemma count_le_one_of_not_hasDup (l : List String) (h : hasDup l = false) (a : String) :
    l.count a ≤ 1 := by
  induction l with
  | nil => simp
  | cons x t ih =>
    have hstep : hasDup (x :: t) = (t.contains x || hasDup t) := rfl
    rw [hstep, Bool.or_eq_false_iff] at h
    obtain ⟨h1, h2⟩ := h
    rw [List.count_cons]
    by_cases hxa : x = a
    · have hnot : a ∉ t := by
        subst hxa
        intro hmem
        have hc : t.contains x = true := List.elem_eq_true_of_mem hmem
        rw [hc] at h1
        simp at h1
      have hz : t.count a = 0 := List.count_eq_zero.mpr hnot
      simp [hz, hxa]
    · have hbeq : (x == a) = false := beq_false_of_ne hxa
      have := ih h2
      simp only [hbeq, Bool.false_eq_true, if_false]
      omega

/-! ## C2 -/

/-- C2: whenever the Sample Matcher returns a pair of tables, the
Expression Table row index sequence is identical, same values and same
order, to the Clinical Table "Complete TCGA ID" column sequence. -/
theorem matched_pair_alignment (α : Type) (ge : List (String × α))
    (er : List ClinicalRow) (out : List (String × Option α) × List ClinicalRow)
    (h : create_data_structures_with_matching_sample ge er = Except.ok out) :
    out.1.map Prod.fst = out.2.map (fun r => r.id) := by
  simp only [create_data_structures_with_matching_sample, reindexRows] at h
  by_cases hdup :
      hasDup ((normalizeNames (er.map (fun r => r.id)) ge).map Prod.fst) = true
  · rw [if_pos hdup] at h
    simp at h
  · rw [if_neg hdup] at h
    simp only [Except.ok.injEq] at h
    rw [← h]
    simp [List.map_map, Function.comp]

/-- Witness for C2 at a concrete input. -/
theorem matched_pair_alignment_witness :
    ([("TCGA-A1-01", some (10:ℕ)), ("TCGA-A2-02", some 20)].map Prod.fst)
      = ([⟨"TCGA-A1-01", "Negative", "I"⟩, ⟨"TCGA-A2-02", "Positive", "II"⟩]
          : List ClinicalRow).map (fun r => r.id) :=
  matched_pair_alignment ℕ
    [("TCGA-A1-01-sample", 10), ("TCGA-A2-02-sample", 20)]
    [⟨"TCGA-A1-01", "Negative", "I"⟩, ⟨"TCGA-A2-02", "Positive", "II"⟩]
    ([("TCGA-A1-01", some 10), ("TCGA-A2-02", some 20)],
     [⟨"TCGA-A1-01", "Negative", "I"⟩, ⟨"TCGA-A2-02", "Positive", "II"⟩])
    (by rfl)

/-! ## C10 -/

/-- C10: when two distinct expression rows end up normalized to the same
clinical sample ID, the Sample Matcher fails on the final reindex step
with the duplicate-label error instead of returning a pair; and whenever
a pair is returned, every clinical ID labels at most one row of the
normalized expression table. -/
theorem matcher_duplicate_label_error (α : Type) (ge : List (String × α))
    (er : List ClinicalRow) (id : String) :
    (id ∈ er.map (fun r => r.id) →
      2 ≤ ((normalizeNames (er.map (fun r => r.id)) ge).map Prod.fst).count id →
      create_data_structures_with_matching_sample ge er =
        Except.error "cannot reindex on an axis with duplicate labels")
    ∧ (∀ out, create_data_structures_with_matching_sample ge er = Except.ok out →
        ((normalizeNames (er.map (fun r => r.id)) ge).map Prod.fst).count id ≤ 1) := by
  constructor
  · intro _ hcount
    have hdup := hasDup_of_two_count _ _ hcount
    simp only [create_data_structures_with_matching_sample, reindexRows]
    rw [if_pos hdup]
  · intro out h
    simp only [create_data_structures_with_matching_sample, reindexRows] at h
    by_cases hdup :
        hasDup ((normalizeNames (er.map (fun r => r.id)) ge).map Prod.fst) = true
    · rw [if_pos hdup] at h
      simp at h
    · simp only [Bool.not_eq_true] at hdup
      exact count_le_one_of_not_hasDup _ hdup id

/-- Witness for C10 at a concrete input: two expression rows both contain
the clinical ID, are both overwritten with it, and the matcher errors. -/
theorem matcher_duplicate_label_error_witness :
    create_data_structures_with_matching_sample
        [("TCGA-A1-01-x", (10:ℕ)), ("TCGA-A1-01-y", 20)]
        [⟨"TCGA-A1-01", "Negative", "I"⟩]
      = Except.error "cannot reindex on an axis with duplicate labels" :=
  (matcher_duplicate_label_error ℕ
      [("TCGA-A1-01-x", 10), ("TCGA-A1-01-y", 20)]
      [⟨"TCGA-A1-01", "Negative", "I"⟩] "TCGA-A1-01").1
    (by decide) (by decide)

/-! ## Category lemmas for the encoder -/

lemma categories_np (l : List String)
    (h : ∀ x ∈ l, x = "Negative" ∨ x = "Positive") :
    categories l =
      if "Negative" ∈ l then
        (if "Positive" ∈ l then ["Negative", "Positive"] else ["Negative"])
      else
        (if "Positive" ∈ l then ["Positive"] else []) := by
  induction l with
  | nil => simp [categories]
  | cons x t ih =>
    have hx := h x (List.mem_cons_self x t)
    have ht : ∀ y ∈ t, y = "Negative" ∨ y = "Positive" :=
      fun y hy => h y (List.mem_cons_of_mem x hy)
    have hstep : categories (x :: t) = insertCat x (categories t) := rfl
    rw [hstep, ih ht]
    have hne : ("Positive" : String) ≠ "Negative" := by decide
    rcases hx with hx | hx <;> subst hx
    · by_cases hN : "Negative" ∈ t <;> by_cases hP : "Positive" ∈ t <;>
        simp only [List.mem_cons, hN, hP, hne, true_or, or_true, or_false, false_or,
          if_true, if_false] <;>
        decide
    · by_cases hN : "Negative" ∈ t <;> by_cases hP : "Positive" ∈ t <;>
        simp only [List.mem_cons, hN, hP, hne, true_or, or_true, or_false, false_or,
          if_true, if_false] <;>
        (try simp [hne, Ne.symm hne]) <;> decide

lemma get_dummies_np (vals : List String)
    (h : ∀ x ∈ vals, x = "Negative" ∨ x = "Positive")
    (hN : "Negative" ∈ vals) (hP : "Positive" ∈ vals) :
    get_dummies vals =
      [("Negative", vals.map (fun v => Value.vNat (if v == "Negative" then 1 else 0))),
       ("Positive", vals.map (fun v => Value.vNat (if v == "Positive" then 1 else 0)))] := by
  unfold get_dummies
  rw [categories_np vals h, if_pos hN, if_pos hP]
  rfl

/-! ## C1 -/

/-- C1: on a Clinical Loader output whose ER statuses all lie in the pair
"Negative" and "Positive", with both values present, the encoder returns
exactly the columns "Complete TCGA ID", "ER Status", "AJCC Stage" in that
order; the encoded "ER Status" cell is the indicator of "Negative" (1 on
"Negative", 0 on "Positive"), and under the hypothesis it also equals the
anti-indicator of "Positive", so it is 1 exactly on "Negative" rows and 0
exactly on "Positive" rows. -/
theorem encode_er_binary (cl : List ClinicalRow)
    (h : ∀ r ∈ cl, r.er = "Negative" ∨ r.er = "Positive")
    (hexn : ∃ r ∈ cl, r.er = "Negative")
    (hexp : ∃ r ∈ cl, r.er = "Positive") :
    encode_estrogen_receptor cl =
      Except.ok [("Complete TCGA ID", cl.map (fun r => Value.vStr r.id)),
                 ("ER Status", cl.map (fun r => Value.vNat (if r.er == "Negative" then 1 else 0))),
                 ("AJCC Stage", cl.map (fun r => Value.vStr r.stage))]
    ∧ cl.map (fun r => Value.vNat (if r.er == "Negative" then 1 else 0))
        = cl.map (fun r => Value.vNat (if r.er == "Positive" then 0 else 1)) := by
  constructor
  · have hvals : ∀ x ∈ cl.map (fun r => r.er), x = "Negative" ∨ x = "Positive" := by
      intro x hx
      obtain ⟨r, hr, hrx⟩ := List.mem_map.mp hx
      rw [← hrx]
      exact h r hr
    have hN : "Negative" ∈ cl.map (fun r => r.er) := by
      obtain ⟨r, hr, hre⟩ := hexn
      exact List.mem_map.mpr ⟨r, hr, hre⟩
    have hP : "Positive" ∈ cl.map (fun r => r.er) := by
      obtain ⟨r, hr, hre⟩ := hexp
      exact List.mem_map.mpr ⟨r, hr, hre⟩
    have hdummy := get_dummies_np _ hvals hN hP
    have hcol : (cl.map (fun r => r.er)).map (fun v => Value.vNat (if v == "Negative" then 1 else 0))
        = cl.map (fun r => Value.vNat (if r.er == "Negative" then 1 else 0)) := by
      rw [List.map_map]
      rfl
    rw [← hcol]
    simp only [encode_estrogen_receptor]
    rw [hdummy]
    rfl
  · apply List.map_congr_left
    intro r hr
    rcases h r hr with he | he <;> simp [he]

/-- Witness for C1 at a concrete two-row input. -/
theorem encode_er_binary_witness :
    encode_estrogen_receptor
        [⟨"TCGA-A1-01", "Negative", "I"⟩, ⟨"TCGA-A2-02", "Positive", "II"⟩] =
      Except.ok [("Complete TCGA ID",
                    ([⟨"TCGA-A1-01", "Negative", "I"⟩, ⟨"TCGA-A2-02", "Positive", "II"⟩]
                      : List ClinicalRow).map (fun r => Value.vStr r.id)),
                 ("ER Status",
                    ([⟨"TCGA-A1-01", "Negative", "I"⟩, ⟨"TCGA-A2-02", "Positive", "II"⟩]
                      : List ClinicalRow).map
                        (fun r => Value.vNat (if r.er == "Negative" then 1 else 0))),
                 ("AJCC Stage",
                    ([⟨"TCGA-A1-01", "Negative", "I"⟩, ⟨"TCGA-A2-02", "Positive", "II"⟩]
                      : List ClinicalRow).map (fun r => Value.vStr r.stage))]
    ∧ ([⟨"TCGA-A1-01", "Negative", "I"⟩, ⟨"TCGA-A2-02", "Positive", "II"⟩]
        : List ClinicalRow).map (fun r => Value.vNat (if r.er == "Negative" then 1 else 0))
      = ([⟨"TCGA-A1-01", "Negative", "I"⟩, ⟨"TCGA-A2-02", "Positive", "II"⟩]
          : List ClinicalRow).map (fun r => Value.vNat (if r.er == "Positive" then 0 else 1)) :=
  encode_er_binary
    [⟨"TCGA-A1-01", "Negative", "I"⟩, ⟨"TCGA-A2-02", "Positive", "II"⟩]
    (by decide) (by decide) (by decide)

/-! ## C9 -/

/-- C9: on a nonempty Clinical Loader output in which only one of the two
categories occurs, the encoder fails with a key-lookup error instead of
returning a table: with only "Negative" present the drop of the missing
"Positive" indicator fails, and with only "Positive" present the final
column selection fails to find "ER Status". -/
theorem encode_single_category_error (cl : List ClinicalRow) (hne : cl ≠ [])
    (hcat : (∀ r ∈ cl, r.er = "Negative") ∨ (∀ r ∈ cl, r.er = "Positive")) :
    encode_estrogen_receptor cl = Except.error "KeyError: Positive"
    ∨ encode_estrogen_receptor cl = Except.error "KeyError: ER Status" := by
  rcases hcat with hall | hall
  · left
    have hN : "Negative" ∈ cl.map (fun r => r.er) := by
      cases cl with
      | nil => exact absurd rfl hne
      | cons r t => exact List.mem_map.mpr ⟨r, List.mem_cons_self r t, hall r (List.mem_cons_self r t)⟩
    have hP : "Positive" ∉ cl.map (fun r => r.er) := by
      intro hm
      obtain ⟨r, hr, hre⟩ := List.mem_map.mp hm
      rw [hall r hr] at hre
      exact absurd hre (by decide)
    have hcats := categories_np (cl.map (fun r => r.er))
      (fun x hx => Or.inl (by obtain ⟨r, hr, hrx⟩ := List.mem_map.mp hx; rw [← hrx]; exact hall r hr))
    rw [if_pos hN, if_neg hP] at hcats
    have hdummy : get_dummies (cl.map (fun r => r.er)) =
        [("Negative", (cl.map (fun r => r.er)).map (fun v => Value.vNat (if v == "Negative" then 1 else 0)))] := by
      unfold get_dummies
      rw [hcats]
      rfl
    simp only [encode_estrogen_receptor]
    rw [hdummy]
    rfl
  · right
    have hP : "Positive" ∈ cl.map (fun r => r.er) := by
      cases cl with
      | nil => exact absurd rfl hne
      | cons r t => exact List.mem_map.mpr ⟨r, List.mem_cons_self r t, hall r (List.mem_cons_self r t)⟩
    have hN : "Negative" ∉ cl.map (fun r => r.er) := by
      intro hm
      obtain ⟨r, hr, hre⟩ := List.mem_map.mp hm
      rw [hall r hr] at hre
      exact absurd hre (by decide)
    have hcats := categories_np (cl.map (fun r => r.er))
      (fun x hx => Or.inr (by obtain ⟨r, hr, hrx⟩ := List.mem_map.mp hx; rw [← hrx]; exact hall r hr))
    rw [if_neg hN, if_pos hP] at hcats
    have hdummy : get_dummies (cl.map (fun r => r.er)) =
        [("Positive", (cl.map (fun r => r.er)).map (fun v => Value.vNat (if v == "Positive" then 1 else 0)))] := by
      unfold get_dummies
      rw [hcats]
      rfl
    simp only [encode_estrogen_receptor]
    rw [hdummy]
    rfl

/-- Witness for C9 at a concrete one-row input. -/
theorem encode_single_category_error_witness :
    encode_estrogen_receptor [(⟨"a", "Negative", "I"⟩ : ClinicalRow)]
        = Except.error "KeyError: Positive"
    ∨ encode_estrogen_receptor [(⟨"a", "Negative", "I"⟩ : ClinicalRow)]
        = Except.error "KeyError: ER Status" :=
  encode_single_category_error [⟨"a", "Negative", "I"⟩] (by decide) (Or.inl (by decide))

/-! ## Cast lemmas for the variability summary -/

lemma ratCast_list_sum (l : List ℚ) :
    ((l.sum : ℚ) : ℝ) = (l.map (fun x : ℚ => (x : ℝ))).sum := by
  induction l with
  | nil => simp
  | cons x t ih => rw [List.sum_cons, List.map_cons, List.sum_cons, Rat.cast_add, ih]

lemma sampleVariance_nonneg (xs : List ℚ) (h : 2 ≤ xs.length) :
    0 ≤ sampleVariance xs := by
  unfold sampleVariance
  apply div_nonneg
  · apply List.sum_nonneg
    intro x hx
    obtain ⟨y, _, hyx⟩ := List.mem_map.mp hx
    rw [← hyx]
    exact sq_nonneg _
  · have : (2 : ℚ) ≤ (xs.length : ℚ) := by exact_mod_cast h
    linarith

lemma sampleVariance_cast (xs : List ℚ) :
    ((sampleVariance xs : ℚ) : ℝ) =
      ((xs.map (fun x : ℚ => ((x : ℝ) - (xs.map (fun y : ℚ => (y : ℝ))).sum / (xs.length : ℝ)) ^ 2)).sum)
        / ((xs.length : ℝ) - 1) := by
  unfold sampleVariance listMean
  rw [Rat.cast_div, ratCast_list_sum, List.map_map]
  have hden : (((xs.length : ℚ) - 1 : ℚ) : ℝ) = (xs.length : ℝ) - 1 := by
    push_cast
    ring
  rw [hden]
  congr 1
  apply congrArg List.sum
  apply List.map_congr_left
  intro x _
  simp only [Function.comp_apply]
  rw [Rat.cast_pow, Rat.cast_sub, Rat.cast_div, ratCast_list_sum, Rat.cast_natCast]

/-! ## C8 -/

/-- C8: get_std computes, for every numeric gene column with at least two
values, the sample standard deviation with the unbiased estimator: the
square of the reported value is the sum of squared deviations from the
mean divided by n - 1; and on the one-gene two-sample table with values
2 and 4 the reported standard deviation is the square root of 2. -/
theorem get_std_sample_estimator :
    get_std [("g1", [2, 4])] = [("g1", some (Real.sqrt 2))]
    ∧ ∀ (cols : List (String × List ℚ)) (p : String × List ℚ),
        p ∈ cols → 2 ≤ p.2.length →
        (p.1, some (Real.sqrt ((sampleVariance p.2 : ℚ) : ℝ))) ∈ get_std cols
        ∧ Real.sqrt ((sampleVariance p.2 : ℚ) : ℝ) ^ 2
            = ((p.2.map (fun x : ℚ => ((x : ℝ) - (p.2.map (fun y : ℚ => (y : ℝ))).sum / (p.2.length : ℝ)) ^ 2)).sum)
                / ((p.2.length : ℝ) - 1) := by
  constructor
  · have hvar : sampleVariance [2, 4] = 2 := by
      norm_num [sampleVariance, listMean]
    simp only [get_std, List.map_cons, List.map_nil, colStd]
    rw [hvar]
    norm_num
  · intro cols p hp hlen
    constructor
    · have hstd : colStd p.2 = some (Real.sqrt ((sampleVariance p.2 : ℚ) : ℝ)) := by
        unfold colStd
        rw [if_neg (by omega)]
      have : (p.1, colStd p.2) ∈ get_std cols := by
        unfold get_std
        exact List.mem_map.mpr ⟨p, hp, rfl⟩
      rw [hstd] at this
      exact this
    · rw [Real.sq_sqrt]
      · exact sampleVariance_cast p.2
      · exact_mod_cast sampleVariance_nonneg p.2 hlen

/-- Witness for C8 at the concrete one-gene two-sample table. -/
theorem get_std_sample_estimator_witness :
    (("g1", some (Real.sqrt ((sampleVariance [2, 4] : ℚ) : ℝ))) ∈ get_std [("g1", [2, 4])])
    ∧ Real.sqrt ((sampleVariance [2, 4] : ℚ) : ℝ) ^ 2
        = ((([2, 4] : List ℚ).map
              (fun x : ℚ => ((x : ℝ) - (([2, 4] : List ℚ).map (fun y : ℚ => (y : ℝ))).sum / (([2, 4] : List ℚ).length : ℝ)) ^ 2)).sum)
            / ((([2, 4] : List ℚ).length : ℝ) - 1) :=
  get_std_sample_estimator.2 [("g1", [2, 4])] ("g1", [2, 4]) (by decide) (by decide)
